import Mathlib

/-!
# Sci-fi timeline: scale and interaction engine

A shallow embedding of `src/main.js` (the arc timeline of futuristic fiction) and the
properties of its axis scale, arc geometry, filter predicate, series grouping and
selection state machine.

Conventions of the embedding

* JavaScript numbers are exact rationals (`ℚ`); rounding of IEEE doubles, `NaN` and the
  infinities are not represented.
* JavaScript strings are lists of characters (`Str`).  `toLowerCase` lowers the ASCII
  letters only, `trim` strips the ECMAScript white space and line terminator characters.
* A field that may be `undefined` is an `Option`; a truthiness test on a string is a test
  for a present, non-empty string.
* The module-level variables of the script are the fields of `State`; a function that
  mutates them is a function `State → State`.
* `d3.scaleLinear` is written out from its documented behaviour (linear interpolation
  between the range ends); `d3.scaleLog` is a parameter `scaleLog` of the functions that
  build or redraw the scale.
-/

namespace SciFiTimeline

/-! ## Strings -/

/-- A JavaScript string. -/
abbrev Str := List Char

/-- White space and line terminators of ECMAScript, the characters `trim` strips. -/
def isWhiteSpace (c : Char) : Bool :=
  let n := c.toNat
  n == 9 || n == 10 || n == 11 || n == 12 || n == 13 || n == 32 || n == 160 ||
  n == 5760 || (8192 ≤ n && n ≤ 8202) || n == 8232 || n == 8233 || n == 8239 ||
  n == 8287 || n == 12288 || n == 65279

/-- The library call `String.prototype.trim`. -/
def trim (s : Str) : Str :=
  ((s.dropWhile isWhiteSpace).reverse.dropWhile isWhiteSpace).reverse

/-- The library call `String.prototype.toLowerCase`, on the ASCII letters. -/
def toLowerCase (s : Str) : Str := s.map Char.toLower

/-- The library call `String.prototype.includes`: `q` occurs in `s` as a contiguous run of
characters. -/
def includes (s q : Str) : Bool := s.tails.any (fun t => q.isPrefixOf t)

/-- The expression `x?.trim()` on a field that may be undefined. -/
def trimOpt (x : Option Str) : Option Str := x.map trim

/-! ## Configuration -/

def AXIS_MIN : ℚ := 1700
def AXIS_MAX_LIN : ℚ := 3000
def LOG_CUTOFF : ℚ := 3000
def LOG_SPLIT_FRAC : ℚ := 0.60
def LOG_MAX : ℚ := 10000000000000
def NOW : ℚ := 2026

structure Margin where
  left : ℚ
  right : ℚ
  top : ℚ
  bottom : ℚ

def MARGIN : Margin := { left := 56, right := 36, top := 32, bottom := 48 }

def ARC_HEIGHT_RATIO : ℚ := 0.76
def ARC_MIN_H : ℚ := 6
def DEFAULT_OPACITY : ℚ := 0.22
def DEFAULT_STROKE : ℚ := 1.2

/-! ## Records -/

/-- One row of the dataset after the load callback: the CSV columns (strings, absent when
the file has no such column), the three numeric columns converted, and the two derived
flags `_isFarFuture` and `_above` (written here without the underscore). The column
`record_id` is taken to be present; `years_distant` is `none` when its conversion gives
`NaN`. -/
structure Record where
  record_id : Str
  released : ℚ
  year_set : ℚ
  years_distant : Option ℚ
  medium : Option Str
  genre : Option Str
  creator : Option Str
  title : Option Str
  notes : Option Str
  predictions : Option Str
  is_series : Option Str
  multiyears : Option Str
  wikipedia_pg : Option Str
  isFarFuture : Bool
  above : Bool
deriving DecidableEq

/-- The series identifier `sid` of a record as `getSiblings` and the series map read it:
`d.is_series?.trim()`, kept only when it is truthy (present and not empty). -/
def seriesKey (d : Record) : Option Str :=
  match trimOpt d.is_series with
  | none => none
  | some sid => if sid = [] then none else some sid

/-! ## Scale -/

/-- The library call `d3.scaleLinear().domain([d0, d1]).range([r0, r1])` applied to `x`,
for `d0 < d1`: the input is normalised to `t = (x - d0) / (d1 - d0)` and the range ends
are interpolated as `r0 * (1 - t) + r1 * t`. The scale does not clamp. -/
def scaleLinear (d0 d1 r0 r1 : ℚ) (x : ℚ) : ℚ :=
  let t := (x - d0) / (d1 - d0)
  r0 * (1 - t) + r1 * t

/-- The type of `d3.scaleLog().domain([d0, d1]).range([r0, r1])` as a function of
`d0 d1 r0 r1` and the input. -/
abbrev ScaleLog := ℚ → ℚ → ℚ → ℚ → ℚ → ℚ

/-- The value of the variable `scaleX` after `buildScaleX`: the function itself and the
properties attached to it. -/
structure Scale where
  fn : ℚ → ℚ
  isFarFuture : ℚ → Bool
  linTicks : List ℚ
  logTicks : Option (List ℚ)

/-- The library call `d3.range(start, stop, 100)` for the two uses in `buildScaleX`:
1800, 1900, ... below `stop`. -/
def rangeBy100 (start stop : ℕ) : List ℚ :=
  ((List.range ((stop - start + 99) / 100)).map (fun i => ((start + 100 * i : ℕ) : ℚ)))

/-- The function `buildScaleX(W)`, reading the variable `isLogScale`. -/
def buildScaleX (scaleLog : ScaleLog) (isLogScale : Bool) (W : ℚ) : Scale :=
  if !isLogScale then
    let s := scaleLinear AXIS_MIN AXIS_MAX_LIN MARGIN.left (W - MARGIN.right)
    { fn := fun y => s (max AXIS_MIN (min y AXIS_MAX_LIN))
      isFarFuture := fun y => decide (y > AXIS_MAX_LIN)
      linTicks := rangeBy100 1800 (3000 + 1)
      logTicks := none }
  else
    let innerW := W - MARGIN.left - MARGIN.right
    let splitX := MARGIN.left + innerW * LOG_SPLIT_FRAC
    let linS := scaleLinear AXIS_MIN LOG_CUTOFF MARGIN.left splitX
    let logS := scaleLog LOG_CUTOFF LOG_MAX splitX (W - MARGIN.right)
    { fn := fun y =>
        if y ≤ LOG_CUTOFF then linS (max AXIS_MIN y)
        else min (logS (min y LOG_MAX)) (W - MARGIN.right)
      isFarFuture := fun y => decide (y > LOG_MAX)
      linTicks := rangeBy100 1800 (3000 + 1)
      logTicks := some [5000, 10000, 50000, 100000, 1000000, 1000000000, 1000000000000] }

/-! ## Arc paths -/

/-- The function `getX2(d)`, reading the variables `scaleX` and `isLogScale`. -/
def getX2 (scaleX : Scale) (isLogScale : Bool) (d : Record) : ℚ :=
  if d.isFarFuture then
    scaleX.fn (if isLogScale then min d.year_set LOG_MAX else AXIS_MAX_LIN)
  else
    scaleX.fn d.year_set

/-- The quadratic curve `M x1,yMid Q xm,yc x2,yMid` that `makeArcPath` prints, with the
height `h` it was built from. -/
structure ArcPath where
  x1 : ℚ
  yMid : ℚ
  xm : ℚ
  yc : ℚ
  x2 : ℚ
  h : ℚ
deriving DecidableEq

/-- The function `makeArcPath(d)`, reading the variables `scaleX`, `isLogScale`, `yMid` and
`maxArcH`. -/
def makeArcPath (scaleX : Scale) (isLogScale : Bool) (yMid maxArcH : ℚ) (d : Record) :
    ArcPath :=
  let x1 := scaleX.fn d.released
  let x2 := getX2 scaleX isLogScale d
  let span := |x2 - x1|
  let h := max ARC_MIN_H (min (span * ARC_HEIGHT_RATIO) maxArcH)
  let xm := (x1 + x2) / 2
  let yc := if d.above then yMid - h else yMid + h
  { x1 := x1, yMid := yMid, xm := xm, yc := yc, x2 := x2, h := h }

/-- The layout that `drawViz` derives from the height `H` of the wrapper: the inner
height `iH`, the baseline `yMid` and the cap `maxArcH`. -/
structure Layout where
  iH : ℚ
  yMid : ℚ
  maxArcH : ℚ

/-- Lines 334 to 336 of `drawViz`. -/
def drawVizLayout (H : ℚ) : Layout :=
  let iH := H - MARGIN.top - MARGIN.bottom
  { iH := iH, yMid := MARGIN.top + iH * 0.5, maxArcH := min (iH * 0.46) 480 }

/-! ## State -/

/-- One `path.arc` element of the layer `gArcs`: the record bound to it and the
attributes the script writes (`d`, `stroke-width`, `opacity`). The stroke colour is a
function of the record alone and is not tracked. -/
structure Arc where
  datum : Record
  d : ArcPath
  strokeWidth : ℚ
  opacity : ℚ
deriving DecidableEq

/-- The children of the layer `gHigh` as `drawOverlay(d, isSelected)` leaves them: the
markers of the focal record, with the selection ring when `isSelected`. -/
structure Overlay where
  focal : Record
  ring : Bool
deriving DecidableEq

/-- The element `#mini-tooltip`: whether it is displayed, the record its content was
written from, and its position. -/
structure MiniTooltip where
  display : Bool
  content : Option Record
  left : ℚ
  top : ℚ
deriving DecidableEq

/-- The side panel: whether `#info-content` (rather than `#info-empty`) is displayed, and
the record and sibling list `updateSidebar` last wrote into it. -/
structure Sidebar where
  showsContent : Bool
  focal : Option Record
  siblings : List Record
deriving DecidableEq

/-- The fields of a mouse event that the handlers read, with the two layout values
`positionMiniTooltip` reads from the page (`window.innerWidth`, the tooltip's
`offsetWidth`). -/
structure MouseEvent where
  pageX : ℚ
  pageY : ℚ
  innerWidth : ℚ
  ttOffsetWidth : ℚ

/-- The module-level variables of the script, the two page elements it writes outside
the chart, and the timers of the page: `pendingTimers` are the identifiers of the
`setTimeout(hideMiniTooltip, 120)` callbacks that have neither fired nor been cleared,
`nextTimerId` the identifier the next `setTimeout` returns. The series map is an object
keyed by series identifier, kept as an association list in insertion order; its lists
hold the same record objects as `allData`. A layer that is still `null` is the empty
list (`gArcs`) or `none` (`gHigh`). -/
structure State where
  allData : List Record
  seriesMap : List (Str × List Record)
  activeFilters : List Str
  isMultiSelect : Bool
  isLogScale : Bool
  searchQuery : Str
  hoveredId : Option Str
  selectedId : Option Str
  ttTimer : Option ℕ
  gArcs : List Arc
  gHigh : Option Overlay
  scaleX : Scale
  yMid : ℚ
  maxArcH : ℚ
  tooltip : MiniTooltip
  sidebar : Sidebar
  pendingTimers : List ℕ
  nextTimerId : ℕ

/-! ## Data load: the series map -/

/-- The two statements `if (!seriesMap[sid]) seriesMap[sid] = []; seriesMap[sid].push(d)`:
the record is pushed onto the list under the key `sid`, which is created when missing. -/
def seriesMapPush (m : List (Str × List Record)) (sid : Str) (d : Record) :
    List (Str × List Record) :=
  match m with
  | [] => [(sid, [d])]
  | (k, l) :: rest =>
    if k = sid then (k, l ++ [d]) :: rest else (k, l) :: seriesMapPush rest sid d

/-- The body of the `forEach` that fills `seriesMap` (lines 165 to 169). -/
def seriesMapStep (m : List (Str × List Record)) (d : Record) : List (Str × List Record) :=
  match seriesKey d with
  | some sid => seriesMapPush m sid d
  | none => m

/-- The series map construction of the load callback (lines 163 to 170), from the sorted
record list. Series identifiers are taken not to be names of members of
`Object.prototype`, for which the callback throws. -/
def buildSeriesMap (allData : List Record) : List (Str × List Record) :=
  allData.foldl seriesMapStep []

/-- The expression `seriesMap[sid] || []`. -/
def seriesMapGet (m : List (Str × List Record)) (sid : Str) : List Record :=
  match m.find? (fun e => e.1 = sid) with
  | some e => e.2
  | none => []

/-! ## Data load: rows, sort and alternation -/

/-- One row as `d3.csv` delivers it: every column a string, absent when the file has no
such column. The column `record_id` is taken to be present. -/
structure RawRow where
  record_id : Str
  released : Option Str
  year_set : Option Str
  years_distant : Option Str
  medium : Option Str
  genre : Option Str
  creator : Option Str
  title : Option Str
  notes : Option Str
  predictions : Option Str
  is_series : Option Str
  multiyears : Option Str
  wikipedia_pg : Option Str

/-- The conversion of a string to a number by the unary plus of the language, as a
function of the string; `none` stands for `NaN`. -/
abbrev ToNumber := Str → Option ℚ

/-- The expression `+x` on a column that may be undefined: `+undefined` is `NaN`. -/
def unaryPlus (toNumber : ToNumber) (x : Option Str) : Option ℚ := x.bind toNumber

/-- The `map` and the `filter` of the load callback on one row (lines 149 to 157): the
three numeric columns are converted, both flags start `false`, and the row is kept when
`released` and `year_set` are numbers and `year_set > 0`. -/
def convertRow (toNumber : ToNumber) (r : RawRow) : Option Record :=
  match unaryPlus toNumber r.released, unaryPlus toNumber r.year_set with
  | some released, some year_set =>
    if year_set > 0 then
      some
        { record_id := r.record_id, released := released, year_set := year_set
          years_distant := unaryPlus toNumber r.years_distant
          medium := r.medium, genre := r.genre, creator := r.creator, title := r.title
          notes := r.notes, predictions := r.predictions, is_series := r.is_series
          multiyears := r.multiyears, wikipedia_pg := r.wikipedia_pg
          isFarFuture := false, above := false }
    else none
  | _, _ => none

/-- The comparator of the sort at line 160,
`a.released - b.released || a.year_set - b.year_set`: the first difference when it is not
zero, else the second. -/
def loadCompare (a b : Record) : ℚ :=
  if a.released - b.released ≠ 0 then a.released - b.released else a.year_set - b.year_set

/-- The library call `Array.prototype.sort(compare)` for a consistent comparator: the
stable sort that puts `a` before `b` when `compare(a, b) < 0` and keeps their order when
`compare(a, b) = 0`. -/
def arraySort (compare : Record → Record → ℚ) (l : List Record) : List Record :=
  l.insertionSort (fun a b => compare a b ≤ 0)

/-- The `forEach` at line 161 from index `i` on: `d._above = (i % 2 === 0)`. -/
def assignAboveFrom (i : ℕ) : List Record → List Record
  | [] => []
  | d :: rest => { d with above := decide (i % 2 = 0) } :: assignAboveFrom (i + 1) rest

/-- The `forEach` at line 161. -/
def assignAbove (l : List Record) : List Record := assignAboveFrom 0 l

/-- The record list `allData` the load callback builds from the rows of the file (lines
148 to 161). -/
def loadData (toNumber : ToNumber) (raw : List RawRow) : List Record :=
  assignAbove (arraySort loadCompare (raw.filterMap (convertRow toNumber)))

/-! ## Filter and opacity -/

/-- The function `isArcActive(d)` as a truth value, reading `searchQuery` and `activeFilters`. -/
def isArcActive (s : State) (d : Record) : Bool :=
  if s.searchQuery ≠ [] then
    match d.title with
    | some t => includes (toLowerCase t) s.searchQuery
    | none => false
  else if s.activeFilters.length ≠ 0 then
    match trimOpt d.medium with
    | some m => s.activeFilters.contains m
    | none => false
  else true

/-- The function `getArcOpacity(d)`. -/
def getArcOpacity (s : State) (d : Record) : ℚ :=
  if !isArcActive s d then 0.03
  else if s.searchQuery ≠ [] then min ( DEFAULT_OPACITY * 2.8) 0.7 else DEFAULT_OPACITY

/-- The library call `selection.raise()` on the arcs that satisfy `p`: each selected element is
re-inserted, in order, as the last child of the layer. -/
def raise (p : Arc → Bool) (arcs : List Arc) : List Arc :=
  arcs.filter (fun a => !p a) ++ arcs.filter p

/-- The function `applyCurrentFilter()`. -/
def applyCurrentFilter (s : State) : State :=
  let hasFilter := decide (s.activeFilters.length > 0) || decide (s.searchQuery ≠ [])
  let arcs := s.gArcs.map (fun a =>
    let active := isArcActive s a.datum
    { a with
      opacity := getArcOpacity s a.datum
      strokeWidth := if active && hasFilter then 2.0 else DEFAULT_STROKE })
  let arcs := if hasFilter then raise (fun a => isArcActive s a.datum) arcs else arcs
  { s with gArcs := arcs }

/-! ## Highlight -/

/-- The function `getSiblings(d)`, reading `seriesMap`. -/
def getSiblings (seriesMap : List (Str × List Record)) (d : Record) : List Record :=
  match seriesKey d with
  | none => []
  | some sid => (seriesMapGet seriesMap sid).filter (fun s => s.record_id ≠ d.record_id)

/-- The function `applyHighlight(d, isSelected)` on the arcs of the layer `gArcs`. -/
def applyHighlight (seriesMap : List (Str × List Record)) (d : Record) (isSelected : Bool)
    (gArcs : List Arc) : List Arc :=
  let siblings := getSiblings seriesMap d
  let dimmed := gArcs.map (fun a => { a with opacity := 0.04, strokeWidth := DEFAULT_STROKE })
  let semi :=
    if siblings.length > 0 then
      dimmed.map (fun a =>
        if siblings.any (fun s => s.record_id = a.datum.record_id) then
          { a with opacity := 0.50, strokeWidth := 1.8 }
        else a)
    else dimmed
  let full := semi.map (fun a =>
    if a.datum.record_id = d.record_id then
      { a with opacity := 1, strokeWidth := if isSelected then 3.5 else 2.8 }
    else a)
  raise (fun a => a.datum.record_id = d.record_id) full

/-- The function `drawOverlay(d, isSelected)`: the layer is emptied and the markers of `d` drawn. -/
def drawOverlay (s : State) (d : Record) (isSelected : Bool) : State :=
  { s with gHigh := some { focal := d, ring := isSelected } }

/-- The function `updateSidebar(d, siblings)`. -/
def updateSidebar (s : State) (d : Record) (siblings : List Record) : State :=
  { s with sidebar := { showsContent := true, focal := some d, siblings := siblings } }

/-- The function `showEmptySidebar()`: only the two `display` styles change. -/
def showEmptySidebar (s : State) : State :=
  { s with sidebar := { s.sidebar with showsContent := false } }

/-! ## Mini tooltip -/

/-- The library call `clearTimeout(_ttTimer)`. -/
def clearTimeoutTT (s : State) : State :=
  match s.ttTimer with
  | some t => { s with pendingTimers := s.pendingTimers.filter (fun u => u ≠ t) }
  | none => s

/-- The function `positionMiniTooltip(event)`. -/
def positionMiniTooltip (s : State) (event : MouseEvent) : State :=
  let x := event.pageX + 14
  let y := event.pageY - 44
  let maxX := event.innerWidth - event.ttOffsetWidth - 20
  { s with tooltip := { s.tooltip with left := min x maxX, top := max y 8 } }

/-- The function `showMiniTooltip(event, d)`. -/
def showMiniTooltip (s : State) (event : MouseEvent) (d : Record) : State :=
  let s := clearTimeoutTT s
  let s := { s with tooltip := { s.tooltip with content := some d, display := true } }
  positionMiniTooltip s event

/-- The function `scheduleHideTT()`: a new timer is started and its identifier stored in
`_ttTimer`. -/
def scheduleHideTT (s : State) : State :=
  { s with
    ttTimer := some s.nextTimerId
    pendingTimers := s.pendingTimers ++ [s.nextTimerId]
    nextTimerId := s.nextTimerId + 1 }

/-- The function `hideMiniTooltip()`. -/
def hideMiniTooltip (s : State) : State :=
  { s with tooltip := { s.tooltip with display := false } }

/-! ## Interaction: arc events -/

/-- The function `deselect()`. -/
def deselect (s : State) : State :=
  let s := { s with selectedId := none, hoveredId := none }
  let s := hideMiniTooltip s
  let s := { s with gHigh := none }
  let s := applyCurrentFilter s
  showEmptySidebar s

/-- The function `onHover(event, d)`, the `mouseenter` listener of an arc. -/
def onHover (s : State) (event : MouseEvent) (d : Record) : State :=
  if !isArcActive s d then s
  else
    let s := { s with hoveredId := some d.record_id }
    if s.selectedId ≠ none ∧ s.selectedId ≠ some d.record_id then
      showMiniTooltip s event d
    else if s.selectedId = some d.record_id then s
    else
      let s := { s with gArcs := applyHighlight s.seriesMap d false s.gArcs }
      let s := drawOverlay s d false
      updateSidebar s d (getSiblings s.seriesMap d)

/-- The function `onLeave()`, the `mouseleave` listener of an arc. -/
def onLeave (s : State) : State :=
  let s := { s with hoveredId := none }
  let s := scheduleHideTT s
  if s.selectedId ≠ none then s
  else
    let s := applyCurrentFilter s
    let s := { s with gHigh := none }
    showEmptySidebar s

/-- The function `onClick(event, d)`, the `click` listener of an arc. The second component tells
whether the listener called `event.stopPropagation()`. -/
def onClick (s : State) (d : Record) : State × Bool :=
  let stopped := true
  if !isArcActive s d then (s, stopped)
  else if s.selectedId = some d.record_id then (deselect s, stopped)
  else
    let s := { s with selectedId := some d.record_id, hoveredId := some d.record_id }
    let s := hideMiniTooltip s
    let s := { s with gArcs := applyHighlight s.seriesMap d true s.gArcs }
    let s := drawOverlay s d true
    (updateSidebar s d (getSiblings s.seriesMap d), stopped)

/-- The `click` listener of the `svg` element (background click). -/
def onSvgClick (s : State) : State :=
  if s.selectedId ≠ none then deselect s else s

/-- A click on the arc of `d`: the arc's listener runs, and the event bubbles to the
listener of the `svg` element unless its propagation was stopped. -/
def clickArc (s : State) (d : Record) : State :=
  let r := onClick s d
  if r.2 then r.1 else onSvgClick r.1

/-- The `mousemove` listener of the `svg` element. -/
def onSvgMouseMove (s : State) (event : MouseEvent) : State :=
  if s.selectedId ≠ none ∧ s.hoveredId ≠ none ∧ s.hoveredId ≠ s.selectedId then
    positionMiniTooltip s event
  else s

/-- The callback of a hide timer, run by the page when timer `t` is still pending. -/
def fireTimer (s : State) (t : ℕ) : State :=
  if t ∈ s.pendingTimers then
    hideMiniTooltip { s with pendingTimers := s.pendingTimers.filter (fun u => u ≠ t) }
  else s

/-! ## Controls -/

/-- The truthiness of `selectedId` in `if (selectedId) deselect()`. -/
def selectedIdTruthy (s : State) : Bool :=
  match s.selectedId with
  | some id => decide (id ≠ [])
  | none => false

/-- The function `toggleFilter(medium)`; the button "All" passes `null`. The set
`activeFilters` is a list without repetition, in insertion order. -/
def toggleFilter (s : State) (medium : Option Str) : State :=
  let s := if selectedIdTruthy s then deselect s else s
  let filters :=
    match medium with
    | none => []
    | some m =>
      if s.isMultiSelect then
        if s.activeFilters.contains m then s.activeFilters.filter (fun f => f ≠ m)
        else s.activeFilters ++ [m]
      else if s.activeFilters.length = 1 ∧ s.activeFilters.contains m then []
      else [m]
  applyCurrentFilter { s with activeFilters := filters }

/-- The `click` listener of the multi-select button. -/
def toggleMultiSelect (s : State) : State :=
  { s with isMultiSelect := !s.isMultiSelect }

/-- The `input` listener of the search box, for the text `value` of the box. -/
def onSearchInput (s : State) (value : Str) : State :=
  let s := { s with searchQuery := trim (toLowerCase value) }
  let s := if selectedIdTruthy s then deselect s else s
  applyCurrentFilter s

/-- The `click` listener of the button that clears the search box. -/
def onSearchClear (s : State) : State :=
  applyCurrentFilter { s with searchQuery := [] }

/-! ## Draw -/

/-- The body of the `forEach` at line 341: the far-future flag of one record, from the
scale just built. -/
def refreshFarFuture (scaleX : Scale) (d : Record) : Record :=
  { d with isFarFuture := scaleX.isFarFuture d.year_set }

/-- The function `drawViz()` for a wrapper of client size `W` by `H`. The far-future flags
are written into the record objects, so the lists of the series map, which hold the same
objects, see the new flags; the side panel and the tooltip keep what was written into
them. The axis and the legend are not tracked. -/
def drawViz (scaleLog : ScaleLog) (s : State) (W H : ℚ) : State :=
  if W = 0 ∨ H = 0 then s
  else
    let lay := drawVizLayout H
    let scaleX := buildScaleX scaleLog s.isLogScale W
    let allData := s.allData.map (refreshFarFuture scaleX)
    let s : State := { s with
      yMid := lay.yMid
      maxArcH := lay.maxArcH
      scaleX := scaleX
      allData := allData
      seriesMap := s.seriesMap.map (fun (e : Str × List Record) =>
        (e.1, e.2.map (refreshFarFuture scaleX)))
      gArcs := allData.map (fun d =>
        { datum := d
          d := makeArcPath scaleX s.isLogScale lay.yMid lay.maxArcH d
          strokeWidth := DEFAULT_STROKE
          opacity := DEFAULT_OPACITY })
      gHigh := none }
    match s.selectedId with
    | some id =>
      match s.allData.find? (fun (r : Record) => r.record_id = id) with
      | some d => drawOverlay { s with gArcs := applyHighlight s.seriesMap d true s.gArcs } d true
      | none => applyCurrentFilter { s with selectedId := none }
    | none => applyCurrentFilter s

/-- The function `setScale(log)` for a wrapper of client size `W` by `H`. -/
def setScale (scaleLog : ScaleLog) (s : State) (log : Bool) (W H : ℚ) : State :=
  drawViz scaleLog { s with isLogScale := log } W H

/-! ## Side panel: series items -/

/-- The `mouseenter` listener of an item of the series list in the side panel, built for
the sibling `sib`. -/
def onSeriesItemEnter (s : State) (event : MouseEvent) (sib : Record) : State :=
  let s := clearTimeoutTT s
  if s.selectedId ≠ none then
    let s := { s with gArcs := applyHighlight s.seriesMap sib false s.gArcs }
    let s := drawOverlay s sib false
    showMiniTooltip s event sib
  else s

/-- The `mouseleave` listener of an item of the series list in the side panel. -/
def onSeriesItemLeave (s : State) : State :=
  let s := hideMiniTooltip s
  match s.selectedId with
  | some id =>
    match s.allData.find? (fun (r : Record) => r.record_id = id) with
    | some sel =>
      drawOverlay { s with gArcs := applyHighlight s.seriesMap sel true s.gArcs } sel true
    | none => s
  | none => s

/-! ## Events -/

/-- The events the page delivers to the listeners of the script. -/
inductive Event where
  | arcEnter (event : MouseEvent) (d : Record)
  | arcLeave
  | arcClick (d : Record)
  | backgroundClick
  | mouseMove (event : MouseEvent)
  | filterButton (medium : Option Str)
  | multiSelectButton
  | searchInput (value : Str)
  | searchClear
  | scaleButton (log : Bool) (W H : ℚ)
  | resize (W H : ℚ)
  | itemEnter (event : MouseEvent) (sib : Record)
  | itemLeave
  | timer (t : ℕ)

/-- The listener each event runs. -/
def step (scaleLog : ScaleLog) (s : State) : Event → State
  | Event.arcEnter event d => onHover s event d
  | Event.arcLeave => onLeave s
  | Event.arcClick d => clickArc s d
  | Event.backgroundClick => onSvgClick s
  | Event.mouseMove event => onSvgMouseMove s event
  | Event.filterButton medium => toggleFilter s medium
  | Event.multiSelectButton => toggleMultiSelect s
  | Event.searchInput value => onSearchInput s value
  | Event.searchClear => onSearchClear s
  | Event.scaleButton log W H => setScale scaleLog s log W H
  | Event.resize W H => drawViz scaleLog s W H
  | Event.itemEnter event sib => onSeriesItemEnter s event sib
  | Event.itemLeave => onSeriesItemLeave s
  | Event.timer t => fireTimer s t

/-- The state after a sequence of events. -/
def run (scaleLog : ScaleLog) (s : State) (events : List Event) : State :=
  events.foldl (step scaleLog) s

/-! ## Specification vocabulary and sample data -/

/-- The attributes `applyHighlight(d, isSelected)` leaves on one arc, given the sibling
list of `d`: the three passes (dim all, semi-highlight the siblings, highlight the focal
arc) composed. -/
def highlightOne (siblings : List Record) (d : Record) (isSelected : Bool) (a : Arc) : Arc :=
  if a.datum.record_id = d.record_id then
    { a with opacity := 1, strokeWidth := if isSelected then 3.5 else 2.8 }
  else if siblings.any (fun s => s.record_id = a.datum.record_id) then
    { a with opacity := 0.50, strokeWidth := 1.8 }
  else { a with opacity := 0.04, strokeWidth := DEFAULT_STROKE }

/-- The stroke width `applyCurrentFilter` writes on the arc of `d` (line 263): 2.0 for an
active record while a filter or a search is set, the default otherwise. -/
def filterStroke (s : State) (d : Record) : ℚ :=
  if isArcActive s d && (decide (s.activeFilters.length > 0) || decide (s.searchQuery ≠ []))
  then 2.0 else DEFAULT_STROKE

/-- The right bound of the axis in the current mode, the expression
`isLogScale ? LOG_MAX : AXIS_MAX_LIN` of `yearLabel` and `drawOverlay`. -/
def rightBound (isLogScale : Bool) : ℚ := if isLogScale then LOG_MAX else AXIS_MAX_LIN

/-- A record as the load callback leaves it, with the given identifier, years, title,
medium, series column and side of the baseline; the other columns are absent and the
far-future flag is still `false`. -/
def mkRecord (id : Str) (released year_set : ℚ) (title medium series : Option Str)
    (above : Bool) : Record :=
  { record_id := id, released := released, year_set := year_set, years_distant := none
    medium := medium, genre := none, creator := none, title := title, notes := none
    predictions := none, is_series := series, multiyears := none, wikipedia_pg := none
    isFarFuture := false, above := above }

/-- A stand-in for `d3.scaleLog` in the samples: the straight line through the range ends.
No property below depends on it. -/
def sampleScaleLog : ScaleLog := fun d0 d1 r0 r1 x => scaleLinear d0 d1 r0 r1 x

def sampleDune : Record :=
  mkRecord "r3".toList 1965 10191 (some "Dune".toList) (some "prose fiction".toList) none true

def sampleTrek : Record :=
  mkRecord "r4".toList 1966 2265 (some "Star Trek".toList) (some "television".toList)
    (some "  ".toList) false

def sampleOdyssey : Record :=
  mkRecord "r1".toList 1968 2001 (some "2001: A Space Odyssey".toList) (some "film".toList)
    (some "Q1".toList) true

def sampleOdyssey2 : Record :=
  mkRecord "r2".toList 1984 2010 (some "2010: The Year We Make Contact".toList)
    (some " film ".toList) (some " Q1".toList) false

/-- Four records in the order the load callback sorts them. -/
def sampleData : List Record := [sampleDune, sampleTrek, sampleOdyssey, sampleOdyssey2]

/-- The state when the load callback has filled `allData` and `seriesMap` and nothing is
drawn yet. The scale is still `null`; a constant scale stands for it. -/
def sampleLoaded : State :=
  { allData := sampleData
    seriesMap := buildSeriesMap sampleData
    activeFilters := []
    isMultiSelect := false
    isLogScale := false
    searchQuery := []
    hoveredId := none
    selectedId := none
    ttTimer := none
    gArcs := []
    gHigh := none
    scaleX := { fn := fun _ => 0, isFarFuture := fun _ => false, linTicks := [], logTicks := none }
    yMid := 0
    maxArcH := 0
    tooltip := { display := false, content := none, left := 0, top := 0 }
    sidebar := { showsContent := false, focal := none, siblings := [] }
    pendingTimers := []
    nextTimerId := 0 }

/-- The state after the first draw, in a wrapper 1000 wide and 600 high: nothing
filtered, searched, hovered or selected. -/
def sampleIdle : State := drawViz sampleScaleLog sampleLoaded 1000 600

/-- The sample state with the medium filter `film`. -/
def sampleFiltered : State := toggleFilter sampleIdle (some "film".toList)

/-- The sample record `2001: A Space Odyssey` as drawn, its far-future flag refreshed. -/
def drawnOdyssey : Record := refreshFarFuture sampleIdle.scaleX sampleOdyssey

/-- The sample record `Dune` as drawn: set beyond the linear axis, so far future. -/
def drawnDune : Record := refreshFarFuture sampleIdle.scaleX sampleDune

/-- A record set a million billion years ahead, beyond the right bound of either axis. -/
def sampleDeepTime : Record :=
  mkRecord "r5".toList 1930 1000000000000000 (some "Deep Time".toList)
    (some "prose fiction".toList) none true

/-- The sample record `Star Trek` as drawn. -/
def drawnTrek : Record := refreshFarFuture sampleIdle.scaleX sampleTrek

/-- The sample state with `2001: A Space Odyssey` selected by a click. -/
def sampleSelected : State := clickArc sampleIdle drawnOdyssey

/-- A mouse event at page position (300, 200) in a window 1280 wide, the tooltip being
180 wide. -/
def sampleEvent : MouseEvent :=
  { pageX := 300, pageY := 200, innerWidth := 1280, ttOffsetWidth := 180 }

/-- The order of the loaded record list: by release year, ties broken by set year. -/
def releasedThenSet (a b : Record) : Prop :=
  a.released < b.released ∨ (a.released = b.released ∧ a.year_set ≤ b.year_set)

/-- A stand-in for the unary plus in the samples: it reads a run of decimal digits and
gives `NaN` for every other string. -/
def sampleToNumber : ToNumber := fun x =>
  if x ≠ [] ∧ x.all Char.isDigit then
    some ((x.foldl (fun n c => 10 * n + (c.toNat - 48)) 0 : ℕ) : ℚ)
  else none

/-- A row of the file with the given identifier, years, title and series column. -/
def mkRow (id : Str) (released year_set : Str) (title series : Option Str) : RawRow :=
  { record_id := id, released := some released, year_set := some year_set
    years_distant := none, medium := none, genre := none, creator := none, title := title
    notes := none, predictions := none, is_series := series, multiyears := none
    wikipedia_pg := none }

/-- Five rows of a file, out of order, one of them without a usable release year. -/
def sampleRows : List RawRow :=
  [ mkRow "a".toList "1984".toList "2010".toList (some "2010".toList) (some "Q1".toList),
    mkRow "b".toList "1968".toList "2001".toList (some "2001".toList) (some "Q1".toList),
    mkRow "c".toList "n/a".toList "2100".toList none none,
    mkRow "d".toList "1968".toList "1999".toList none none,
    mkRow "e".toList "1965".toList "10191".toList (some "Dune".toList) none ]

/-- The events of a pointer that, with `2001: A Space Odyssey` selected, passes over
`Dune`, then over the selected arc, then comes to rest on `Star Trek`. -/
def sampleSweep : List Event :=
  [ Event.arcEnter sampleEvent drawnDune, Event.arcLeave,
    Event.arcEnter sampleEvent drawnOdyssey, Event.arcLeave,
    Event.arcEnter sampleEvent drawnTrek ]

/-! ## Strings: lemmas -/

theorem toLower_ofNat_add (n : ℕ) (h1 : 65 ≤ n) (h2 : n ≤ 90) :
    (Char.ofNat (n + 32)).toLower = Char.ofNat (n + 32) := by
  interval_cases n <;> decide

theorem toLower_toLower (c : Char) : c.toLower.toLower = c.toLower := by
  by_cases h : c.toNat ≥ 65 ∧ c.toNat ≤ 90
  · have hc : c.toLower = Char.ofNat (c.toNat + 32) := by simp [Char.toLower, h]
    rw [hc]
    exact toLower_ofNat_add _ h.1 h.2
  · have hc : c.toLower = c := by simp only [Char.toLower, h, if_false]
    rw [hc, hc]

theorem toLowerCase_idem (s : Str) : toLowerCase (toLowerCase s) = toLowerCase s := by
  simp [toLowerCase, List.map_map, Function.comp_def, toLower_toLower]

theorem mem_of_mem_trim (s : Str) (c : Char) (hc : c ∈ trim s) : c ∈ s := by
  unfold trim at hc
  rw [List.mem_reverse] at hc
  have h1 := (List.dropWhile_suffix _).subset hc
  rw [List.mem_reverse] at h1
  exact (List.dropWhile_suffix _).subset h1

theorem toLowerCase_eq_self (s : Str) (h : ∀ c ∈ s, c.toLower = c) : toLowerCase s = s := by
  unfold toLowerCase
  induction s with
  | nil => rfl
  | cons a l ih =>
    simp only [List.map_cons]
    rw [h a (List.mem_cons_self a l), ih (fun c hc => h c (List.mem_cons_of_mem a hc))]

/-- The query the search box stores is already in lower case. -/
theorem toLowerCase_trim_toLowerCase (v : Str) :
    toLowerCase (trim (toLowerCase v)) = trim (toLowerCase v) := by
  apply toLowerCase_eq_self
  intro c hc
  have hmem := mem_of_mem_trim _ _ hc
  unfold toLowerCase at hmem
  obtain ⟨b, _, rfl⟩ := List.mem_map.mp hmem
  exact toLower_toLower b

/-- The search box stores its text in lower case and trimmed. -/
theorem onSearchInput_searchQuery (s : State) (value : Str) :
    (onSearchInput s value).searchQuery = trim (toLowerCase value) ∧
    toLowerCase (onSearchInput s value).searchQuery = (onSearchInput s value).searchQuery := by
  have h : (onSearchInput s value).searchQuery = trim (toLowerCase value) := by
    unfold onSearchInput
    simp only
    split <;> rfl
  exact ⟨h, by rw [h]; exact toLowerCase_trim_toLowerCase value⟩

/-! ## The stored query is in lower case -/

theorem applyCurrentFilter_searchQuery (s : State) :
    (applyCurrentFilter s).searchQuery = s.searchQuery := rfl

theorem deselect_searchQuery (s : State) : (deselect s).searchQuery = s.searchQuery := rfl

theorem drawViz_searchQuery (scaleLog : ScaleLog) (s : State) (W H : ℚ) :
    (drawViz scaleLog s W H).searchQuery = s.searchQuery := by
  unfold drawViz
  split
  · rfl
  · simp only
    split
    · split <;> rfl
    · rfl

/-- Every listener other than those of the search box leaves the query as it is. -/
theorem step_searchQuery (scaleLog : ScaleLog) (s : State) (e : Event) :
    (step scaleLog s e).searchQuery = s.searchQuery ∨
    (∃ value, (step scaleLog s e).searchQuery = trim (toLowerCase value)) ∨
    (step scaleLog s e).searchQuery = [] := by
  cases e with
  | arcEnter event d =>
    left
    simp only [step, onHover]
    split
    · rfl
    · split
      · simp only [showMiniTooltip, positionMiniTooltip, clearTimeoutTT]
        split <;> rfl
      · split <;> rfl
  | arcLeave =>
    left
    simp only [step, onLeave]
    split <;> rfl
  | arcClick d =>
    left
    simp only [step, clickArc, onClick]
    split
    · rfl
    · split <;> rfl
  | backgroundClick =>
    left
    simp only [step, onSvgClick]
    split <;> rfl
  | mouseMove event =>
    left
    simp only [step, onSvgMouseMove]
    split <;> rfl
  | filterButton medium =>
    left
    simp only [step, toggleFilter]
    split <;> rfl
  | multiSelectButton => left; rfl
  | searchInput value =>
    right; left
    refine ⟨value, ?_⟩
    simp only [step, onSearchInput]
    split <;> rfl
  | searchClear => right; right; rfl
  | scaleButton log W H =>
    left
    simp only [step, setScale]
    rw [drawViz_searchQuery]
  | resize W H =>
    left
    simp only [step]
    rw [drawViz_searchQuery]
  | itemEnter event sib =>
    left
    simp only [step, onSeriesItemEnter]
    split
    · simp only [showMiniTooltip, positionMiniTooltip, clearTimeoutTT]
      split <;> split <;> rfl
    · simp only [clearTimeoutTT]
      split <;> rfl
  | itemLeave =>
    left
    simp only [step, onSeriesItemLeave]
    split
    · split <;> rfl
    · rfl
  | timer t =>
    left
    simp only [step, fireTimer]
    split <;> rfl

/-- The stored query is in lower case in every state the events lead to. -/
theorem run_searchQuery_lower (scaleLog : ScaleLog) (events : List Event) (s : State)
    (h : toLowerCase s.searchQuery = s.searchQuery) :
    toLowerCase (run scaleLog s events).searchQuery = (run scaleLog s events).searchQuery := by
  induction events generalizing s with
  | nil => exact h
  | cons e l ih =>
    apply ih
    rcases step_searchQuery scaleLog s e with h1 | ⟨v, h1⟩ | h1
    · rw [h1]; exact h
    · rw [h1]; exact toLowerCase_trim_toLowerCase v
    · rw [h1]; rfl

/-! ## Filter and opacity: theorems -/

/-- C2. `getArcOpacity(d)` is 0.03 for an inactive record, 0.22 for an active record when
no search query is set, and `min(0.22 × 2.8, 0.7) = 0.616` for an active record when a
search query is set. -/
theorem getArcOpacity_values (s : State) (d : Record) :
    getArcOpacity s d =
      (if isArcActive s d = false then 0.03
       else if s.searchQuery = [] then 0.22
       else 0.616) ∧
    min ((0.22 : ℚ) * 2.8) 0.7 = 0.616 := by
  unfold getArcOpacity DEFAULT_OPACITY
  refine ⟨?_, by norm_num⟩
  cases h : isArcActive s d
  · simp
  · by_cases hs : s.searchQuery = []
    · simp [hs]
    · simp only [Bool.not_true, Bool.false_eq_true, if_false, ne_eq, hs, not_false_eq_true,
        if_true]
      norm_num

/-! ## Series grouping: lemmas -/

theorem seriesMapGet_push (m : List (Str × List Record)) (k sid : Str) (d : Record) :
    seriesMapGet (seriesMapPush m k d) sid =
      if k = sid then seriesMapGet m sid ++ [d] else seriesMapGet m sid := by
  induction m with
  | nil =>
    by_cases h : k = sid
    · simp [seriesMapPush, seriesMapGet, h]
    · simp [seriesMapPush, seriesMapGet, h]
  | cons e rest ih =>
    obtain ⟨k0, l0⟩ := e
    unfold seriesMapPush
    by_cases h0 : k0 = k
    · subst h0
      by_cases h : k0 = sid
      · simp [seriesMapGet, h]
      · simp [seriesMapGet, h]
    · rw [if_neg h0]
      by_cases h1 : k0 = sid
      · subst h1
        have hk : ¬ k = k0 := fun h => h0 h.symm
        simp [seriesMapGet, hk]
      · have : seriesMapGet ((k0, l0) :: seriesMapPush rest k d) sid
            = seriesMapGet (seriesMapPush rest k d) sid := by
          simp [seriesMapGet, h1]
        rw [this, ih]
        simp [seriesMapGet, h1]

theorem seriesMapGet_foldl (data : List Record) (m : List (Str × List Record)) (sid : Str) :
    seriesMapGet (data.foldl seriesMapStep m) sid
      = seriesMapGet m sid ++ data.filter (fun s => decide (seriesKey s = some sid)) := by
  induction data generalizing m with
  | nil => simp
  | cons a l ih =>
    rw [List.foldl_cons, ih]
    unfold seriesMapStep
    cases hk : seriesKey a with
    | none => simp [hk]
    | some k =>
      simp only [seriesMapGet_push]
      by_cases h : k = sid
      · simp [hk, h]
      · simp [hk, h]

theorem seriesMapGet_build (data : List Record) (sid : Str) :
    seriesMapGet (buildSeriesMap data) sid
      = data.filter (fun s => decide (seriesKey s = some sid)) := by
  unfold buildSeriesMap
  rw [seriesMapGet_foldl]
  simp [seriesMapGet]

theorem getSiblings_build (data : List Record) (d : Record) :
    getSiblings (buildSeriesMap data) d =
      data.filter (fun s => decide (s.record_id ≠ d.record_id) &&
        ((seriesKey s).isSome && decide (seriesKey s = seriesKey d))) := by
  unfold getSiblings
  cases hk : seriesKey d with
  | none =>
    simp only
    symm
    rw [List.filter_eq_nil_iff]
    intro s _
    cases hs : seriesKey s <;> simp
  | some sid =>
    simp only
    rw [seriesMapGet_build, List.filter_filter]
    apply List.filter_congr
    intro s _
    cases hs : seriesKey s <;> simp

theorem seriesKey_eq_none_of_blank (d : Record)
    (h : ∀ t, d.is_series = some t → ∀ c ∈ t, isWhiteSpace c = true) :
    seriesKey d = none := by
  unfold seriesKey trimOpt
  cases hs : d.is_series with
  | none => rfl
  | some t =>
    have hall := h t hs
    have : trim t = [] := by
      unfold trim
      have h1 : t.dropWhile isWhiteSpace = [] := by
        rw [List.dropWhile_eq_nil_iff]
        exact hall
      rw [h1]
      rfl
    simp [this]

/-! ## Draw: the series map follows the record list -/

theorem seriesKey_refreshFarFuture (sc : Scale) (d : Record) :
    seriesKey (refreshFarFuture sc d) = seriesKey d := rfl

theorem seriesMapPush_map (g : Record → Record) (m : List (Str × List Record)) (sid : Str)
    (d : Record) :
    seriesMapPush (m.map (fun (e : Str × List Record) => (e.1, e.2.map g))) sid (g d) =
      (seriesMapPush m sid d).map (fun (e : Str × List Record) => (e.1, e.2.map g)) := by
  induction m with
  | nil => rfl
  | cons e rest ih =>
    obtain ⟨k, l⟩ := e
    simp only [List.map_cons, seriesMapPush]
    by_cases h : k = sid
    · simp [h]
    · simp [h, ih]

theorem foldl_seriesMapStep_refresh (sc : Scale) (data : List Record)
    (m : List (Str × List Record)) :
    (data.map (refreshFarFuture sc)).foldl seriesMapStep
        (m.map (fun (e : Str × List Record) => (e.1, e.2.map (refreshFarFuture sc)))) =
      (data.foldl seriesMapStep m).map
        (fun (e : Str × List Record) => (e.1, e.2.map (refreshFarFuture sc))) := by
  induction data generalizing m with
  | nil => rfl
  | cons a l ih =>
    simp only [List.map_cons, List.foldl_cons]
    rw [← ih]
    congr 1
    unfold seriesMapStep
    rw [seriesKey_refreshFarFuture]
    cases seriesKey a with
    | none => rfl
    | some sid => exact seriesMapPush_map _ m sid a

/-- Redrawing keeps the series map in step with the record list: the map that holds the
refreshed record objects is the map built from the refreshed list. -/
theorem drawViz_seriesMap (scaleLog : ScaleLog) (s : State) (W H : ℚ)
    (h : s.seriesMap = buildSeriesMap s.allData) :
    (drawViz scaleLog s W H).seriesMap = buildSeriesMap (drawViz scaleLog s W H).allData := by
  unfold drawViz
  by_cases hz : W = 0 ∨ H = 0
  · rw [if_pos hz]
    exact h
  · rw [if_neg hz]
    have key := foldl_seriesMapStep_refresh (buildScaleX scaleLog s.isLogScale W) s.allData []
    simp only [List.map_nil] at key
    simp only
    split
    · split
      · simp only [drawOverlay, h, buildSeriesMap]
        exact key.symm
      · simp only [applyCurrentFilter, h, buildSeriesMap]
        exact key.symm
    · simp only [applyCurrentFilter, h, buildSeriesMap]
      exact key.symm

/-! ## Highlight: lemmas -/

theorem applyHighlight_eq_map (sm : List (Str × List Record)) (d : Record) (sel : Bool)
    (arcs : List Arc) :
    applyHighlight sm d sel arcs =
      raise (fun a => a.datum.record_id = d.record_id)
        (arcs.map (highlightOne (getSiblings sm d) d sel)) := by
  unfold applyHighlight
  simp only
  congr 1
  by_cases hlen : (getSiblings sm d).length > 0
  · rw [if_pos hlen, List.map_map, List.map_map]
    apply List.map_congr_left
    intro a _
    simp only [Function.comp_apply, highlightOne]
    by_cases h2 : ((getSiblings sm d).any (fun s => s.record_id = a.datum.record_id)) = true
    · rw [if_pos h2]
    · rw [if_neg h2]
  · rw [if_neg hlen, List.map_map]
    have hnil : getSiblings sm d = [] := by
      cases hg : getSiblings sm d with
      | nil => rfl
      | cons x l => rw [hg] at hlen; simp at hlen
    apply List.map_congr_left
    intro a _
    simp only [Function.comp_apply, highlightOne, hnil]
    by_cases h1 : a.datum.record_id = d.record_id
    · simp [h1]
    · simp [h1]

theorem mem_raise (p : Arc → Bool) (arcs : List Arc) (a : Arc) :
    a ∈ raise p arcs ↔ a ∈ arcs := by
  unfold raise
  rw [List.mem_append, List.mem_filter, List.mem_filter]
  cases h : p a <;> simp [h]

theorem raise_perm (p : Arc → Bool) (arcs : List Arc) : (raise p arcs).Perm arcs := by
  unfold raise
  exact (List.perm_append_comm).trans (List.filter_append_perm p arcs)

theorem highlightOne_datum (sib : List Record) (d : Record) (sel : Bool) (a : Arc) :
    (highlightOne sib d sel a).datum = a.datum := by
  unfold highlightOne
  split
  · rfl
  · split <;> rfl

theorem eq_of_record_id_eq (allData : List Record)
    (hids : (allData.map Record.record_id).Nodup) (x y : Record) (hx : x ∈ allData)
    (hy : y ∈ allData) (h : x.record_id = y.record_id) : x = y :=
  List.inj_on_of_nodup_map hids hx hy h

/-- The sibling test of `applyHighlight` on an arc of the dataset. -/
theorem any_sibling_iff (allData : List Record)
    (hids : (allData.map Record.record_id).Nodup) (d x : Record) (hx : x ∈ allData) :
    (getSiblings (buildSeriesMap allData) d).any (fun s => s.record_id = x.record_id) = true ↔
      x.record_id ≠ d.record_id ∧ seriesKey d ≠ none ∧ seriesKey x = seriesKey d := by
  rw [getSiblings_build, List.any_eq_true]
  constructor
  · rintro ⟨s, hs, hsx⟩
    rw [List.mem_filter] at hs
    obtain ⟨hsmem, hcond⟩ := hs
    have hsx2 : s.record_id = x.record_id := by simpa using hsx
    have hsx3 : s = x := eq_of_record_id_eq allData hids s x hsmem hx hsx2
    subst hsx3
    simp only [ne_eq, Bool.and_eq_true, decide_eq_true_eq, Option.isSome_iff_ne_none,
      decide_not, Bool.not_eq_true', decide_eq_false_iff_not] at hcond
    refine ⟨hcond.1, ?_, hcond.2.2⟩
    rw [← hcond.2.2]
    exact hcond.2.1
  · rintro ⟨h1, h2, h3⟩
    refine ⟨x, ?_, by simp⟩
    rw [List.mem_filter]
    refine ⟨hx, ?_⟩
    simp only [ne_eq, Bool.and_eq_true, decide_eq_true_eq, Option.isSome_iff_ne_none,
      decide_not, Bool.not_eq_true', decide_eq_false_iff_not]
    refine ⟨h1, ?_, h3⟩
    rw [h3]
    exact h2

theorem length_le_one_of_const (l : List Arc) (c : Record)
    (hnd : (l.map Arc.datum).Nodup) (hc : ∀ a ∈ l, a.datum = c) : l.length ≤ 1 := by
  match l, hnd, hc with
  | [], _, _ => simp
  | [_], _, _ => simp
  | x :: y :: r, hnd, hc =>
    exfalso
    have hx := hc x (by simp)
    have hy := hc y (by simp)
    simp only [List.map_cons, List.nodup_cons, List.mem_cons, not_or] at hnd
    exact hnd.1.1 (hx.trans hy.symm)

theorem getLast_raise (p : Arc → Bool) (l : List Arc) (a : Arc) (ha : a ∈ l) (hp : p a = true)
    (hone : (l.filter p).length ≤ 1) : (raise p l).getLast? = some a := by
  unfold raise
  have hmem : a ∈ l.filter p := List.mem_filter.mpr ⟨ha, hp⟩
  have hf : l.filter p = [a] := by
    match hl : l.filter p, hone, hmem with
    | [], _, hmem => simp [hl] at hmem
    | [x], _, hmem =>
      simp only [List.mem_singleton] at hmem
      rw [hmem]
    | x :: y :: r, hone, _ => simp at hone
  rw [hf]
  simp

/-- C3. After `applyHighlight(d, isSelected)` on the arcs of a dataset with unique record
ids, every record still has its arc, and for every arc `a`: if `a` is the arc of `d`, its
opacity is 1, its stroke width is 3.5 when selected and 2.8 when hovered, every other arc
has a smaller stroke width, and `a` is last in draw order; else if `a` shares the
non-empty series identifier of `d`, its opacity is 0.50 and its stroke width 1.8;
otherwise its opacity is 0.04 and its stroke width 1.2. -/
theorem applyHighlight_spec (allData : List Record) (arcs : List Arc) (d : Record)
    (isSelected : Bool)
    (hids : (allData.map Record.record_id).Nodup)
    (harcs : (arcs.map Arc.datum).Perm allData)
    (hd : d ∈ allData) :
    ((applyHighlight (buildSeriesMap allData) d isSelected arcs).map Arc.datum).Perm allData ∧
    (∃ a ∈ applyHighlight (buildSeriesMap allData) d isSelected arcs, a.datum = d) ∧
    ∀ a ∈ applyHighlight (buildSeriesMap allData) d isSelected arcs,
      if a.datum = d then
        a.opacity = 1 ∧ a.strokeWidth = (if isSelected then 3.5 else 2.8) ∧
        (∀ b ∈ applyHighlight (buildSeriesMap allData) d isSelected arcs,
          b ≠ a → b.strokeWidth < a.strokeWidth) ∧
        (applyHighlight (buildSeriesMap allData) d isSelected arcs).getLast? = some a
      else if seriesKey d ≠ none ∧ seriesKey a.datum = seriesKey d then
        a.opacity = 0.50 ∧ a.strokeWidth = 1.8
      else
        a.opacity = 0.04 ∧ a.strokeWidth = 1.2 := by
  rw [applyHighlight_eq_map]
  set sib := getSiblings (buildSeriesMap allData) d with hsib
  set full := arcs.map (highlightOne sib d isSelected) with hfull
  set p : Arc → Bool := fun a => decide (a.datum.record_id = d.record_id) with hp
  have hdatum : full.map Arc.datum = arcs.map Arc.datum := by
    rw [hfull, List.map_map]
    apply List.map_congr_left
    intro a _
    exact highlightOne_datum sib d isSelected a
  have hperm : ((raise p full).map Arc.datum).Perm allData := by
    have h1 := (raise_perm p full).map Arc.datum
    rw [hdatum] at h1
    exact h1.trans harcs
  have hnd : ((raise p full).map Arc.datum).Nodup :=
    (hperm.nodup_iff).mpr (List.Nodup.of_map _ hids)
  have hin : ∀ a ∈ raise p full, a.datum ∈ allData := by
    intro a ha
    exact hperm.subset (List.mem_map_of_mem _ ha)
  have hpd : ∀ a ∈ raise p full, (p a = true ↔ a.datum = d) := by
    intro a ha
    simp only [hp, decide_eq_true_eq]
    constructor
    · intro h
      exact eq_of_record_id_eq allData hids _ _ (hin a ha) hd h
    · intro h
      rw [h]
  -- the attributes of each arc
  have hattr : ∀ a ∈ raise p full,
      (a.datum = d → a.opacity = 1 ∧ a.strokeWidth = (if isSelected then 3.5 else 2.8)) ∧
      (a.datum ≠ d → (seriesKey d ≠ none ∧ seriesKey a.datum = seriesKey d) →
        a.opacity = 0.50 ∧ a.strokeWidth = 1.8) ∧
      (a.datum ≠ d → ¬ (seriesKey d ≠ none ∧ seriesKey a.datum = seriesKey d) →
        a.opacity = 0.04 ∧ a.strokeWidth = 1.2) := by
    intro a ha
    have hpa := hpd a ha
    have hmem := hin a ha
    rw [mem_raise, hfull, List.mem_map] at ha
    obtain ⟨a0, _, rfl⟩ := ha
    rw [highlightOne_datum] at hpa hmem ⊢
    simp only [hp, decide_eq_true_eq, highlightOne_datum] at hpa
    have hany := any_sibling_iff allData hids d a0.datum hmem
    unfold highlightOne
    refine ⟨?_, ?_, ?_⟩
    · intro h
      rw [if_pos (hpa.mpr h)]
      exact ⟨rfl, rfl⟩
    · intro h hk
      have hne : ¬ a0.datum.record_id = d.record_id := fun e => h (hpa.mp e)
      rw [if_neg hne, if_pos (hany.mpr ⟨hne, hk.1, hk.2⟩)]
      exact ⟨rfl, rfl⟩
    · intro h hk
      have hne : ¬ a0.datum.record_id = d.record_id := fun e => h (hpa.mp e)
      have hnot : ¬ (sib.any (fun s => decide (s.record_id = a0.datum.record_id)) = true) := by
        intro e
        have := hany.mp e
        exact hk ⟨this.2.1, this.2.2⟩
      rw [if_neg hne, if_neg hnot]
      refine ⟨rfl, ?_⟩
      show DEFAULT_STROKE = 1.2
      rfl
  have hex : ∃ a ∈ raise p full, a.datum = d := by
    have : d ∈ (raise p full).map Arc.datum := hperm.symm.subset hd
    obtain ⟨a, ha, had⟩ := List.mem_map.mp this
    exact ⟨a, ha, had⟩
  refine ⟨hperm, hex, ?_⟩
  intro a ha
  obtain ⟨h1, h2, h3⟩ := hattr a ha
  by_cases had : a.datum = d
  · rw [if_pos had]
    obtain ⟨ho, hw⟩ := h1 had
    refine ⟨ho, hw, ?_, ?_⟩
    · intro b hb hba
      have hbd : b.datum ≠ d := by
        intro e
        exact hba (List.inj_on_of_nodup_map hnd hb ha (e.trans had.symm))
      obtain ⟨_, g2, g3⟩ := hattr b hb
      rw [hw]
      by_cases hk : seriesKey d ≠ none ∧ seriesKey b.datum = seriesKey d
      · rw [(g2 hbd hk).2]
        cases isSelected <;> norm_num
      · rw [(g3 hbd hk).2]
        cases isSelected <;> norm_num
    · apply getLast_raise p full a ((mem_raise p full a).mp ha) ((hpd a ha).mpr had)
      apply length_le_one_of_const _ d
      · have hsub : (full.filter p).Sublist (raise p full) := by
          unfold raise
          exact List.sublist_append_right _ _
        exact (hsub.map Arc.datum).nodup hnd
      · intro b hb
        have hb2 := List.mem_filter.mp hb
        exact (hpd b ((mem_raise p full b).mpr hb2.1)).mp hb2.2
  · rw [if_neg had]
    by_cases hk : seriesKey d ≠ none ∧ seriesKey a.datum = seriesKey d
    · rw [if_pos hk]
      exact h2 had hk
    · rw [if_neg hk]
      exact h3 had hk

/-- Witness of C3: selecting `2001: A Space Odyssey` in the sample chart. -/
theorem applyHighlight_spec_witness :
    (sampleIdle.allData.map Record.record_id).Nodup ∧
    (sampleIdle.gArcs.map Arc.datum).Perm sampleIdle.allData ∧
    drawnOdyssey ∈ sampleIdle.allData ∧
    ((applyHighlight (buildSeriesMap sampleIdle.allData) drawnOdyssey true
        sampleIdle.gArcs).map Arc.datum).Perm sampleIdle.allData ∧
    (∃ a ∈ applyHighlight (buildSeriesMap sampleIdle.allData) drawnOdyssey true
        sampleIdle.gArcs,
      a.datum = drawnOdyssey) ∧
    ∀ a ∈ applyHighlight (buildSeriesMap sampleIdle.allData) drawnOdyssey true
        sampleIdle.gArcs,
      if a.datum = drawnOdyssey then
        a.opacity = 1 ∧ a.strokeWidth = (if true then 3.5 else 2.8) ∧
        (∀ b ∈ applyHighlight (buildSeriesMap sampleIdle.allData) drawnOdyssey true
            sampleIdle.gArcs,
          b ≠ a → b.strokeWidth < a.strokeWidth) ∧
        (applyHighlight (buildSeriesMap sampleIdle.allData) drawnOdyssey true
          sampleIdle.gArcs).getLast? = some a
      else if seriesKey drawnOdyssey ≠ none ∧ seriesKey a.datum = seriesKey drawnOdyssey then
        a.opacity = 0.50 ∧ a.strokeWidth = 1.8
      else
        a.opacity = 0.04 ∧ a.strokeWidth = 1.2 :=
  have hids : (sampleIdle.allData.map Record.record_id).Nodup := by decide
  have harcs : (sampleIdle.gArcs.map Arc.datum).Perm sampleIdle.allData :=
    List.Perm.of_eq rfl
  have hd : drawnOdyssey ∈ sampleIdle.allData := by decide
  ⟨hids, harcs, hd,
    applyHighlight_spec sampleIdle.allData sampleIdle.gArcs drawnOdyssey true hids harcs hd⟩

/-! ## Series grouping: theorem -/

/-- C10. For every record `d` of a loaded dataset, `getSiblings(d)` is the list, in the
order of the loaded record list, of the records whose series identifier is non-empty and
equal to that of `d` and whose record id differs from that of `d`; with unique record ids
these are exactly the records other than `d`; and when `d` has no series identifier
(the column is absent, empty or blank) the list is empty. -/
theorem getSiblings_spec (allData : List Record) (d : Record) (hd : d ∈ allData) :
    getSiblings (buildSeriesMap allData) d =
      allData.filter (fun s => decide (s.record_id ≠ d.record_id) &&
        ((seriesKey s).isSome && decide (seriesKey s = seriesKey d))) ∧
    ((allData.map Record.record_id).Nodup →
      getSiblings (buildSeriesMap allData) d =
        allData.filter (fun s => decide (s ≠ d) &&
          ((seriesKey s).isSome && decide (seriesKey s = seriesKey d)))) ∧
    ((∀ t, d.is_series = some t → ∀ c ∈ t, isWhiteSpace c = true) →
      getSiblings (buildSeriesMap allData) d = []) := by
  refine ⟨getSiblings_build allData d, ?_, ?_⟩
  · intro hids
    rw [getSiblings_build]
    apply List.filter_congr
    intro s hs
    have hiff : s.record_id ≠ d.record_id ↔ s ≠ d := by
      constructor
      · intro h e
        exact h (by rw [e])
      · intro h e
        exact h (eq_of_record_id_eq allData hids s d hs hd e)
    by_cases hsd : s = d
    · have h1 : ¬ s.record_id ≠ d.record_id := fun h => (hiff.mp h) hsd
      simp [hsd]
    · have h1 : s.record_id ≠ d.record_id := hiff.mpr hsd
      simp [hsd, h1]
  · intro hblank
    have hnone := seriesKey_eq_none_of_blank d hblank
    unfold getSiblings
    rw [hnone]

/-- Witness of C10: the siblings of `2001: A Space Odyssey` in the sample dataset. -/
theorem getSiblings_spec_witness :
    sampleOdyssey ∈ sampleData ∧
    getSiblings (buildSeriesMap sampleData) sampleOdyssey = [sampleOdyssey2] ∧
    getSiblings (buildSeriesMap sampleData) sampleTrek = [] :=
  ⟨by decide,
    ((getSiblings_spec sampleData sampleOdyssey (by decide)).1).trans (by decide),
    (getSiblings_spec sampleData sampleTrek (by decide)).2.2 (by decide)⟩

/-! ## Interaction: theorems -/

theorem isArcActive_congr (s s2 : State) (d : Record) (hq : s2.searchQuery = s.searchQuery)
    (hf : s2.activeFilters = s.activeFilters) : isArcActive s2 d = isArcActive s d := by
  unfold isArcActive
  rw [hq, hf]

theorem getArcOpacity_congr (s s2 : State) (d : Record) (hq : s2.searchQuery = s.searchQuery)
    (hf : s2.activeFilters = s.activeFilters) : getArcOpacity s2 d = getArcOpacity s d := by
  unfold getArcOpacity
  rw [isArcActive_congr s s2 d hq hf, hq]

theorem filterStroke_congr (s s2 : State) (d : Record) (hq : s2.searchQuery = s.searchQuery)
    (hf : s2.activeFilters = s.activeFilters) : filterStroke s2 d = filterStroke s d := by
  unfold filterStroke
  rw [isArcActive_congr s s2 d hq hf, hq, hf]

/-- What `applyCurrentFilter` leaves on the arcs. -/
theorem applyCurrentFilter_arcs (s : State) :
    ((applyCurrentFilter s).gArcs.map Arc.datum).Perm (s.gArcs.map Arc.datum) ∧
    ∀ a ∈ (applyCurrentFilter s).gArcs,
      a.opacity = getArcOpacity s a.datum ∧ a.strokeWidth = filterStroke s a.datum := by
  unfold applyCurrentFilter
  simp only
  set f : Arc → Arc := fun a =>
    { a with
      opacity := getArcOpacity s a.datum
      strokeWidth :=
        if (isArcActive s a.datum &&
          (decide (s.activeFilters.length > 0) || decide (s.searchQuery ≠ []))) = true
        then 2.0 else DEFAULT_STROKE } with hf
  have hdatum : (s.gArcs.map f).map Arc.datum = s.gArcs.map Arc.datum := by
    rw [List.map_map]
    rfl
  have hmem : ∀ a ∈ s.gArcs.map f,
      a.opacity = getArcOpacity s a.datum ∧ a.strokeWidth = filterStroke s a.datum := by
    intro a ha
    obtain ⟨a0, _, rfl⟩ := List.mem_map.mp ha
    exact ⟨rfl, rfl⟩
  split
  · refine ⟨?_, ?_⟩
    · have h1 := (raise_perm (fun a => isArcActive s a.datum) (s.gArcs.map f)).map Arc.datum
      rw [hdatum] at h1
      exact h1
    · intro a ha
      exact hmem a ((mem_raise _ _ a).mp ha)
  · refine ⟨?_, hmem⟩
    rw [hdatum]

theorem deselect_fields (s : State) :
    (deselect s).selectedId = none ∧ (deselect s).hoveredId = none ∧
    (deselect s).gHigh = none ∧ (deselect s).sidebar.showsContent = false ∧
    (deselect s).tooltip.display = false ∧
    ((deselect s).gArcs.map Arc.datum).Perm (s.gArcs.map Arc.datum) ∧
    ∀ a ∈ (deselect s).gArcs,
      a.opacity = getArcOpacity s a.datum ∧ a.strokeWidth = filterStroke s a.datum := by
  have h := applyCurrentFilter_arcs
    { hideMiniTooltip { s with selectedId := none, hoveredId := none } with gHigh := none }
  refine ⟨rfl, rfl, rfl, rfl, rfl, h.1, ?_⟩
  intro a ha
  have h2 := h.2 a ha
  exact ⟨h2.1.trans (getArcOpacity_congr s _ a.datum rfl rfl),
    h2.2.trans (filterStroke_congr s _ a.datum rfl rfl)⟩

/-- C4. A click on the arc of an active record `d` toggles the selection. If `d` is the
selected record, the state returns to idle: `selectedId` and `hoveredId` are `null`, every
arc is still there with its filter-based opacity and stroke width, the overlay is empty
and the side panel shows no record. Otherwise `d` becomes the selected record:
`selectedId = hoveredId = d.record_id`, the arcs are those of `applyHighlight(d, true)`,
and the overlay and the side panel show `d`. -/
theorem click_toggles_selection (s : State) (d : Record) (hactive : isArcActive s d = true) :
    (s.selectedId = some d.record_id →
      (clickArc s d).selectedId = none ∧ (clickArc s d).hoveredId = none ∧
      ((clickArc s d).gArcs.map Arc.datum).Perm (s.gArcs.map Arc.datum) ∧
      (∀ a ∈ (clickArc s d).gArcs,
        a.opacity = getArcOpacity s a.datum ∧ a.strokeWidth = filterStroke s a.datum) ∧
      (clickArc s d).gHigh = none ∧ (clickArc s d).sidebar.showsContent = false) ∧
    (s.selectedId ≠ some d.record_id →
      (clickArc s d).selectedId = some d.record_id ∧
      (clickArc s d).hoveredId = some d.record_id ∧
      (clickArc s d).gArcs = applyHighlight s.seriesMap d true s.gArcs ∧
      (clickArc s d).gHigh = some { focal := d, ring := true } ∧
      (clickArc s d).sidebar =
        { showsContent := true, focal := some d, siblings := getSiblings s.seriesMap d }) := by
  constructor
  · intro hsel
    have hc : clickArc s d = deselect s := by
      unfold clickArc onClick
      simp [hactive, hsel]
    rw [hc]
    obtain ⟨h1, h2, h3, h4, _, h6, h7⟩ := deselect_fields s
    exact ⟨h1, h2, h6, h7, h3, h4⟩
  · intro hsel
    unfold clickArc onClick
    simp [hactive, hsel, hideMiniTooltip, drawOverlay, updateSidebar]

/-- Witness of C4: clicking `2001: A Space Odyssey` selects it, clicking it again
deselects it. -/
theorem click_toggles_selection_witness :
    isArcActive sampleIdle drawnOdyssey = true ∧
    isArcActive sampleSelected drawnOdyssey = true ∧
    (clickArc sampleIdle drawnOdyssey).selectedId = some drawnOdyssey.record_id ∧
    (clickArc sampleSelected drawnOdyssey).selectedId = none ∧
    (clickArc sampleSelected drawnOdyssey).hoveredId = none :=
  have h1 := (click_toggles_selection sampleIdle drawnOdyssey (by decide)).2 (by decide)
  have h2 := (click_toggles_selection sampleSelected drawnOdyssey (by decide)).1 (by decide)
  ⟨by decide, by decide, h1.1, h2.1, h2.2.1⟩


/-- C5. For a record that `isArcActive` rejects, a pointer-enter and a click on its arc
leave the whole state as it was: `selectedId`, `hoveredId`, every arc's opacity and stroke
width, and all the rest. The click does not reach the background listener, so it does not
deselect the current selection. -/
theorem inactive_arc_ignores_events (s : State) (event : MouseEvent) (d : Record)
    (hinactive : isArcActive s d = false) :
    onHover s event d = s ∧ clickArc s d = s := by
  constructor
  · unfold onHover
    simp [hinactive]
  · unfold clickArc onClick
    simp [hinactive]

/-- C6. While `d` is selected, a pointer-enter on another active record `e` followed by a
pointer-leave keeps `selectedId` at the id of `d` and leaves the arcs, the overlay and
the side panel as they were: entering changes only `hoveredId` (the id of `e`), the
tooltip (shown for `e`) and the pending hide timers, and after the leave `hoveredId` is
`null` again, only the tooltip and the timer variables differing from the state before. -/
theorem hover_other_keeps_selection (s : State) (event : MouseEvent) (d e : Record)
    (hsel : s.selectedId = some d.record_id)
    (hother : e.record_id ≠ d.record_id)
    (hactive : isArcActive s e = true) :
    (onHover s event e).selectedId = some d.record_id ∧
    (onHover s event e).hoveredId = some e.record_id ∧
    (onHover s event e).tooltip.display = true ∧
    (onHover s event e).tooltip.content = some e ∧
    onHover s event e =
      { s with
        hoveredId := (onHover s event e).hoveredId
        tooltip := (onHover s event e).tooltip
        pendingTimers := (onHover s event e).pendingTimers } ∧
    (onLeave (onHover s event e)).selectedId = some d.record_id ∧
    (onLeave (onHover s event e)).hoveredId = none ∧
    (onLeave (onHover s event e)).gArcs = s.gArcs ∧
    (onLeave (onHover s event e)).gHigh = s.gHigh ∧
    (onLeave (onHover s event e)).sidebar = s.sidebar ∧
    onLeave (onHover s event e) =
      { s with
        hoveredId := none
        tooltip := (onHover s event e).tooltip
        ttTimer := (onLeave (onHover s event e)).ttTimer
        pendingTimers := (onLeave (onHover s event e)).pendingTimers
        nextTimerId := (onLeave (onHover s event e)).nextTimerId } := by
  have hne : some d.record_id ≠ some e.record_id := by
    intro h
    exact hother (Option.some.inj h).symm
  have hhover : onHover s event e =
      showMiniTooltip { s with hoveredId := some e.record_id } event e := by
    unfold onHover
    simp [hactive, hsel, hne]
  have hleave : onLeave (onHover s event e) =
      scheduleHideTT { onHover s event e with hoveredId := none } := by
    unfold onLeave
    simp [hhover, showMiniTooltip, positionMiniTooltip, clearTimeoutTT, scheduleHideTT, hsel]
    cases s.ttTimer <;> simp
  rw [hleave, hhover]
  unfold showMiniTooltip positionMiniTooltip clearTimeoutTT scheduleHideTT
  cases s.ttTimer <;> simp [hsel]

/-- Witness of C5: under the filter `film`, the television record is inactive. -/
theorem inactive_arc_ignores_events_witness :
    isArcActive sampleFiltered drawnTrek = false ∧
    onHover sampleFiltered sampleEvent drawnTrek = sampleFiltered ∧
    clickArc sampleFiltered drawnTrek = sampleFiltered :=
  ⟨by decide, inactive_arc_ignores_events sampleFiltered sampleEvent drawnTrek (by decide)⟩

/-- Witness of C6: `2001: A Space Odyssey` is selected and the pointer passes over
`Dune`. -/
theorem hover_other_keeps_selection_witness :
    sampleSelected.selectedId = some drawnOdyssey.record_id ∧
    drawnDune.record_id ≠ drawnOdyssey.record_id ∧
    isArcActive sampleSelected drawnDune = true ∧
    (onLeave (onHover sampleSelected sampleEvent drawnDune)).selectedId =
      some drawnOdyssey.record_id ∧
    (onLeave (onHover sampleSelected sampleEvent drawnDune)).gArcs = sampleSelected.gArcs :=
  have h := hover_other_keeps_selection sampleSelected sampleEvent drawnOdyssey drawnDune
    (by decide) (by decide) (by decide)
  ⟨by decide, by decide, by decide, h.2.2.2.2.2.1, h.2.2.2.2.2.2.2.1⟩

/-! ## Scale and arc geometry: theorems -/

theorem linear_fn (scaleLog : ScaleLog) (W y : ℚ) :
    (buildScaleX scaleLog false W).fn y =
      scaleLinear AXIS_MIN AXIS_MAX_LIN MARGIN.left (W - MARGIN.right)
        (max AXIS_MIN (min y AXIS_MAX_LIN)) := rfl

theorem log_fn (scaleLog : ScaleLog) (W y : ℚ) :
    (buildScaleX scaleLog true W).fn y =
      if y ≤ LOG_CUTOFF then
        scaleLinear AXIS_MIN LOG_CUTOFF MARGIN.left
          (MARGIN.left + (W - MARGIN.left - MARGIN.right) * LOG_SPLIT_FRAC) (max AXIS_MIN y)
      else
        min (scaleLog LOG_CUTOFF LOG_MAX
          (MARGIN.left + (W - MARGIN.left - MARGIN.right) * LOG_SPLIT_FRAC) (W - MARGIN.right)
          (min y LOG_MAX)) (W - MARGIN.right) := rfl

/-- C8. In each scale mode, with `B` the right bound of the axis (`AXIS_MAX_LIN` in
linear mode, `LOG_MAX` in log-hybrid mode), for every chart width and every year `y > B`:
`isFarFuture(y)` is true and `scale(y) = scale(B)`; and for every record set after `B`
whose far-future flag has been recomputed from that scale, the flag is true and
`getX2(record) = scale(B)`. -/
theorem far_future_pinned (scaleLog : ScaleLog) (isLogScale : Bool) (W y : ℚ) (d : Record)
    (hy : rightBound isLogScale < y) (hd : rightBound isLogScale < d.year_set) :
    (buildScaleX scaleLog isLogScale W).isFarFuture y = true ∧
    (buildScaleX scaleLog isLogScale W).fn y =
      (buildScaleX scaleLog isLogScale W).fn (rightBound isLogScale) ∧
    (refreshFarFuture (buildScaleX scaleLog isLogScale W) d).isFarFuture = true ∧
    getX2 (buildScaleX scaleLog isLogScale W) isLogScale
        (refreshFarFuture (buildScaleX scaleLog isLogScale W) d) =
      (buildScaleX scaleLog isLogScale W).fn (rightBound isLogScale) := by
  cases isLogScale with
  | false =>
    have hy2 : AXIS_MAX_LIN < y := hy
    have hd2 : AXIS_MAX_LIN < d.year_set := hd
    have hflag : (refreshFarFuture (buildScaleX scaleLog false W) d).isFarFuture = true := by
      show decide (d.year_set > AXIS_MAX_LIN) = true
      exact decide_eq_true hd2
    refine ⟨decide_eq_true hy2, ?_, hflag, ?_⟩
    · rw [linear_fn, linear_fn]
      show _ = scaleLinear AXIS_MIN AXIS_MAX_LIN MARGIN.left (W - MARGIN.right)
        (max AXIS_MIN (min AXIS_MAX_LIN AXIS_MAX_LIN))
      rw [min_eq_right hy2.le, min_self]
    · unfold getX2
      rw [hflag]
      rfl
  | true =>
    have hy2 : LOG_MAX < y := hy
    have hd2 : LOG_MAX < d.year_set := hd
    have hcut : LOG_CUTOFF < LOG_MAX := by unfold LOG_CUTOFF LOG_MAX; norm_num
    have hflag : (refreshFarFuture (buildScaleX scaleLog true W) d).isFarFuture = true := by
      show decide (d.year_set > LOG_MAX) = true
      exact decide_eq_true hd2
    have hB : rightBound true = LOG_MAX := rfl
    refine ⟨decide_eq_true hy2, ?_, hflag, ?_⟩
    · rw [hB, log_fn, log_fn, if_neg (not_le.mpr (hcut.trans hy2)), if_neg (not_le.mpr hcut),
        min_eq_right hy2.le, min_self]
    · unfold getX2
      rw [hflag, hB]
      simp only [if_true]
      show (buildScaleX scaleLog true W).fn (min d.year_set LOG_MAX) = _
      rw [min_eq_right hd2.le]

/-- Witness of C8: log-hybrid mode, a chart 1000 wide, the year 1e15 and a record set
in it. -/
theorem far_future_pinned_witness :
    rightBound true < 1000000000000000 ∧
    rightBound true < sampleDeepTime.year_set ∧
    (buildScaleX sampleScaleLog true 1000).isFarFuture 1000000000000000 = true ∧
    getX2 (buildScaleX sampleScaleLog true 1000) true
        (refreshFarFuture (buildScaleX sampleScaleLog true 1000) sampleDeepTime) =
      (buildScaleX sampleScaleLog true 1000).fn LOG_MAX :=
  have hy : rightBound true < 1000000000000000 := by norm_num [rightBound, LOG_MAX]
  have hd : rightBound true < sampleDeepTime.year_set := by
    norm_num [rightBound, LOG_MAX, sampleDeepTime, mkRecord]
  have h := far_future_pinned sampleScaleLog true 1000 1000000000000000 sampleDeepTime hy hd
  ⟨hy, hd, h.1, h.2.2.2⟩

/-- C9, as amended. For every record and every drawing size, the arc height `h` of
`makeArcPath` is `max(6, min(span × 0.76, maxHeight))` with `span = |x2 − x1|` and
`maxHeight = min(0.46 × (H − top margin − bottom margin), 480)`. So `6 ≤ h` always; when
`maxHeight ≥ 6`, `h` is `span × 0.76` clamped into `[6, maxHeight]` and `h ≤ maxHeight`;
when `maxHeight < 6`, `h` is 6. -/
theorem arc_height_clamped (scaleLog : ScaleLog) (isLogScale : Bool) (W H : ℚ) (d : Record) :
    (drawVizLayout H).maxArcH = min (0.46 * (H - MARGIN.top - MARGIN.bottom)) 480 ∧
    (makeArcPath (buildScaleX scaleLog isLogScale W) isLogScale (drawVizLayout H).yMid
        (drawVizLayout H).maxArcH d).h =
      max 6 (min
        (|getX2 (buildScaleX scaleLog isLogScale W) isLogScale d -
            (buildScaleX scaleLog isLogScale W).fn d.released| * 0.76)
        (drawVizLayout H).maxArcH) ∧
    6 ≤ (makeArcPath (buildScaleX scaleLog isLogScale W) isLogScale (drawVizLayout H).yMid
        (drawVizLayout H).maxArcH d).h ∧
    (6 ≤ (drawVizLayout H).maxArcH →
      (makeArcPath (buildScaleX scaleLog isLogScale W) isLogScale (drawVizLayout H).yMid
        (drawVizLayout H).maxArcH d).h ≤ (drawVizLayout H).maxArcH) ∧
    ((drawVizLayout H).maxArcH < 6 →
      (makeArcPath (buildScaleX scaleLog isLogScale W) isLogScale (drawVizLayout H).yMid
        (drawVizLayout H).maxArcH d).h = 6) := by
  refine ⟨?_, rfl, ?_, ?_, ?_⟩
  · unfold drawVizLayout
    simp only
    rw [mul_comm]
  · exact le_max_left _ _
  · intro hH
    exact max_le hH (min_le_right _ _)
  · intro hH
    exact max_eq_left ((min_le_right _ _).trans hH.le)

/-- Witness of C9: in a wrapper 600 high the cap is 239.2 and the arc of the sample
record stays under it. -/
theorem arc_height_clamped_witness :
    (6 : ℚ) ≤ (drawVizLayout 600).maxArcH ∧
    (makeArcPath (buildScaleX sampleScaleLog false 1000) false (drawVizLayout 600).yMid
        (drawVizLayout 600).maxArcH drawnOdyssey).h ≤ (drawVizLayout 600).maxArcH :=
  have hH : (6 : ℚ) ≤ (drawVizLayout 600).maxArcH := by
    norm_num [drawVizLayout, MARGIN]
  ⟨hH, (arc_height_clamped sampleScaleLog false 1000 600 drawnOdyssey).2.2.2.1 hH⟩

/-- C9 fails as stated: a wrapper 1000 wide and 90 high is drawn, its cap `maxHeight` is
4.6, and every arc has height 6, above the cap. -/
theorem arc_height_exceeds_cap_when_low :
    (1000 : ℚ) ≠ 0 ∧ (90 : ℚ) ≠ 0 ∧
    (drawVizLayout 90).maxArcH = 4.6 ∧
    (makeArcPath (buildScaleX sampleScaleLog false 1000) false (drawVizLayout 90).yMid
        (drawVizLayout 90).maxArcH drawnOdyssey).h = 6 ∧
    (drawViz sampleScaleLog sampleLoaded 1000 90).gArcs.map (fun a => a.d.h) = [6, 6, 6, 6] ∧
    (drawViz sampleScaleLog sampleLoaded 1000 90).maxArcH = 4.6 ∧
    ¬ ((makeArcPath (buildScaleX sampleScaleLog false 1000) false (drawVizLayout 90).yMid
        (drawVizLayout 90).maxArcH drawnOdyssey).h ≤ (drawVizLayout 90).maxArcH) := by
  have hcap : (drawVizLayout 90).maxArcH = 4.6 := by
    norm_num [drawVizLayout, MARGIN]
  have hh : ∀ (sc : Scale) (d : Record),
      (makeArcPath sc false (drawVizLayout 90).yMid (drawVizLayout 90).maxArcH d).h = 6 := by
    intro sc d
    unfold makeArcPath
    simp only [hcap, ARC_MIN_H]
    apply max_eq_left
    exact (min_le_right _ _).trans (by norm_num)
  have hne : ¬ ((1000 : ℚ) = 0 ∨ (90 : ℚ) = 0) := by norm_num
  have hdraw : (drawViz sampleScaleLog sampleLoaded 1000 90).maxArcH =
      (drawVizLayout 90).maxArcH := by
    unfold drawViz
    rw [if_neg hne]
    rfl
  have harcs : (drawViz sampleScaleLog sampleLoaded 1000 90).gArcs.map (fun a => a.d.h) =
      sampleData.map (fun d => (makeArcPath (buildScaleX sampleScaleLog false 1000) false
        (drawVizLayout 90).yMid (drawVizLayout 90).maxArcH
        (refreshFarFuture (buildScaleX sampleScaleLog false 1000) d)).h) := by
    unfold drawViz
    rw [if_neg hne]
    rfl
  refine ⟨by norm_num, by norm_num, hcap, hh _ _, ?_, hdraw.trans hcap, ?_⟩
  · rw [harcs]
    simp only [hh, sampleData, List.map_cons, List.map_nil]
  · rw [hh, hcap]
    norm_num

/-! ## Data load: theorems -/

theorem loadCompare_le_iff (a b : Record) : loadCompare a b ≤ 0 ↔ releasedThenSet a b := by
  unfold loadCompare releasedThenSet
  by_cases h : a.released - b.released ≠ 0
  · rw [if_pos h]
    constructor
    · intro hle
      left
      rcases lt_or_eq_of_le hle with h1 | h1
      · linarith
      · exact absurd h1 h
    · rintro (h1 | ⟨h1, _⟩)
      · linarith
      · exact absurd (by rw [h1]; ring) h
  · rw [if_neg h]
    have he : a.released = b.released := by
      have := not_not.mp h
      linarith
    constructor
    · intro hle
      right
      exact ⟨he, by linarith⟩
    · rintro (h1 | ⟨_, h2⟩)
      · rw [he] at h1
        exact absurd h1 (lt_irrefl _)
      · linarith

theorem releasedThenSet_total (a b : Record) : releasedThenSet a b ∨ releasedThenSet b a := by
  unfold releasedThenSet
  rcases lt_trichotomy a.released b.released with h | h | h
  · exact Or.inl (Or.inl h)
  · rcases le_total a.year_set b.year_set with h2 | h2
    · exact Or.inl (Or.inr ⟨h, h2⟩)
    · exact Or.inr (Or.inr ⟨h.symm, h2⟩)
  · exact Or.inr (Or.inl h)

theorem releasedThenSet_trans (a b c : Record) (h1 : releasedThenSet a b)
    (h2 : releasedThenSet b c) : releasedThenSet a c := by
  unfold releasedThenSet at *
  rcases h1 with h1 | ⟨h1, h1'⟩ <;> rcases h2 with h2 | ⟨h2, h2'⟩
  · exact Or.inl (h1.trans h2)
  · exact Or.inl (h2 ▸ h1)
  · exact Or.inl (h1 ▸ h2)
  · exact Or.inr ⟨h1.trans h2, h1'.trans h2'⟩

theorem arraySort_loadCompare_sorted (l : List Record) :
    (arraySort loadCompare l).Pairwise releasedThenSet := by
  unfold arraySort
  haveI : IsTotal Record (fun a b => loadCompare a b ≤ 0) :=
    ⟨fun a b => by
      rw [loadCompare_le_iff, loadCompare_le_iff]
      exact releasedThenSet_total a b⟩
  haveI : IsTrans Record (fun a b => loadCompare a b ≤ 0) :=
    ⟨fun a b c => by
      rw [loadCompare_le_iff, loadCompare_le_iff, loadCompare_le_iff]
      exact releasedThenSet_trans a b c⟩
  have h := List.sorted_insertionSort (fun a b => loadCompare a b ≤ 0) l
  exact List.Pairwise.imp (fun {a b} hab => (loadCompare_le_iff a b).mp hab) h

theorem arraySort_perm (compare : Record → Record → ℚ) (l : List Record) :
    (arraySort compare l).Perm l :=
  List.perm_insertionSort _ l

theorem getElem?_assignAboveFrom (l : List Record) (i k : ℕ) :
    (assignAboveFrom i l)[k]? =
      (l[k]?).map (fun d => { d with above := decide ((i + k) % 2 = 0) }) := by
  induction l generalizing i k with
  | nil => simp [assignAboveFrom]
  | cons a rest ih =>
    cases k with
    | zero => simp [assignAboveFrom]
    | succ k =>
      simp only [assignAboveFrom, List.getElem?_cons_succ]
      rw [ih (i + 1) k]
      have : i + 1 + k = i + (k + 1) := by omega
      rw [this]

theorem exists_of_mem_assignAboveFrom (l : List Record) (i : ℕ) (x : Record)
    (hx : x ∈ assignAboveFrom i l) :
    ∃ y ∈ l, x.released = y.released ∧ x.year_set = y.year_set := by
  induction l generalizing i with
  | nil => simp [assignAboveFrom] at hx
  | cons a rest ih =>
    simp only [assignAboveFrom, List.mem_cons] at hx
    rcases hx with hx | hx
    · exact ⟨a, List.mem_cons_self a rest, by rw [hx], by rw [hx]⟩
    · obtain ⟨y, hy, h1, h2⟩ := ih (i + 1) hx
      exact ⟨y, List.mem_cons_of_mem a hy, h1, h2⟩

theorem pairwise_assignAboveFrom (l : List Record) (i : ℕ)
    (h : l.Pairwise releasedThenSet) : (assignAboveFrom i l).Pairwise releasedThenSet := by
  induction l generalizing i with
  | nil => simp [assignAboveFrom]
  | cons a rest ih =>
    rw [List.pairwise_cons] at h
    simp only [assignAboveFrom, List.pairwise_cons]
    refine ⟨?_, ih (i + 1) h.2⟩
    intro x hx
    obtain ⟨y, hy, h1, h2⟩ := exists_of_mem_assignAboveFrom rest (i + 1) x hx
    have hay := h.1 y hy
    unfold releasedThenSet at hay ⊢
    simp only [h1, h2]
    exact hay

theorem map_erase_assignAboveFrom (l : List Record) (i : ℕ) :
    (assignAboveFrom i l).map (fun d => { d with above := false }) =
      l.map (fun d => { d with above := false }) := by
  induction l generalizing i with
  | nil => rfl
  | cons a rest ih =>
    simp only [assignAboveFrom, List.map_cons]
    rw [ih (i + 1)]

theorem above_of_convertRow (toNumber : ToNumber) (r : RawRow) (d : Record)
    (h : convertRow toNumber r = some d) : { d with above := false } = d := by
  unfold convertRow at h
  split at h
  · split at h
    · simp only [Option.some.injEq] at h
      rw [← h]
    · exact absurd h (by simp)
  · exact absurd h (by simp)

/-- C11. After the load callback, for every list of rows of the file, the record list
holds the rows that were kept (up to the `_above` flag), it is ordered by release year
with ties broken by set year, its first record is above the baseline, and any two
consecutive records have different `_above` flags. -/
theorem loadData_ordered_alternating (toNumber : ToNumber) (raw : List RawRow) :
    ((loadData toNumber raw).map (fun d => { d with above := false })).Perm
      (raw.filterMap (convertRow toNumber)) ∧
    (loadData toNumber raw).Pairwise releasedThenSet ∧
    (∀ d, (loadData toNumber raw).head? = some d → d.above = true) ∧
    (∀ i d e, (loadData toNumber raw)[i]? = some d →
      (loadData toNumber raw)[i + 1]? = some e → d.above ≠ e.above) := by
  unfold loadData assignAbove
  refine ⟨?_, ?_, ?_, ?_⟩
  · rw [map_erase_assignAboveFrom]
    have hp := (arraySort_perm loadCompare (raw.filterMap (convertRow toNumber))).map
      (fun d : Record => { d with above := false })
    refine hp.trans (List.Perm.of_eq ?_)
    conv_rhs => rw [← List.map_id (raw.filterMap (convertRow toNumber))]
    apply List.map_congr_left
    intro d hd
    obtain ⟨r, _, hr⟩ := List.mem_filterMap.mp hd
    exact above_of_convertRow toNumber r d hr
  · exact pairwise_assignAboveFrom _ 0 (arraySort_loadCompare_sorted _)
  · intro d hd
    rw [List.head?_eq_getElem?, getElem?_assignAboveFrom] at hd
    cases hk : (arraySort loadCompare (raw.filterMap (convertRow toNumber)))[0]? with
    | none => rw [hk] at hd; simp at hd
    | some x =>
      rw [hk] at hd
      simp only [Option.map_some', Option.some.injEq] at hd
      rw [← hd]
      rfl
  · intro i d e hd he
    rw [getElem?_assignAboveFrom] at hd he
    cases hk : (arraySort loadCompare (raw.filterMap (convertRow toNumber)))[i]? with
    | none => rw [hk] at hd; simp at hd
    | some x =>
      cases hk2 : (arraySort loadCompare (raw.filterMap (convertRow toNumber)))[i + 1]? with
      | none => rw [hk2] at he; simp at he
      | some z =>
        rw [hk] at hd
        rw [hk2] at he
        simp only [Option.map_some', Option.some.injEq] at hd he
        rw [← hd, ← he]
        simp only [zero_add, ne_eq, decide_eq_decide]
        omega

/-- Witness of C11: the five sample rows give four records, in order. -/
theorem loadData_ordered_alternating_witness :
    (loadData sampleToNumber sampleRows).length = 4 ∧
    (loadData sampleToNumber sampleRows).Pairwise releasedThenSet ∧
    ∀ d, (loadData sampleToNumber sampleRows).head? = some d → d.above = true :=
  have h := loadData_ordered_alternating sampleToNumber sampleRows
  have hlen : (sampleRows.filterMap (convertRow sampleToNumber)).length = 4 := by decide
  ⟨((List.length_map _ _).symm.trans h.1.length_eq).trans hlen, h.2.1, h.2.2.1⟩

/-! ## Highlight: idempotence -/

theorem highlightOne_path (sib : List Record) (d : Record) (sel : Bool) (a : Arc) :
    (highlightOne sib d sel a).d = a.d := by
  unfold highlightOne
  split
  · rfl
  · split <;> rfl

theorem highlightOne_congr (sib : List Record) (d : Record) (sel : Bool) (a b : Arc)
    (h1 : a.datum = b.datum) (h2 : a.d = b.d) :
    highlightOne sib d sel a = highlightOne sib d sel b := by
  obtain ⟨ad, ap, aw, ao⟩ := a
  obtain ⟨bd, bp, bw, bo⟩ := b
  simp only at h1 h2
  subst h1
  subst h2
  rfl

theorem highlightOne_idem (sib : List Record) (d : Record) (sel : Bool) (a : Arc) :
    highlightOne sib d sel (highlightOne sib d sel a) = highlightOne sib d sel a :=
  highlightOne_congr sib d sel _ a (highlightOne_datum sib d sel a)
    (highlightOne_path sib d sel a)

theorem raise_map_highlightOne (sib : List Record) (d : Record) (sel : Bool) (l : List Arc) :
    (raise (fun a => decide (a.datum.record_id = d.record_id)) l).map (highlightOne sib d sel) =
      raise (fun a => decide (a.datum.record_id = d.record_id))
        (l.map (highlightOne sib d sel)) := by
  unfold raise
  rw [List.map_append, List.filter_map, List.filter_map]
  congr 2
  · apply List.filter_congr
    intro a _
    simp only [Function.comp_apply, highlightOne_datum]
  · apply List.filter_congr
    intro a _
    simp only [Function.comp_apply, highlightOne_datum]

theorem raise_raise (p : Arc → Bool) (l : List Arc) : raise p (raise p l) = raise p l := by
  unfold raise
  simp only [List.filter_append, List.filter_filter]
  have h1 : List.filter (fun a => (!p a) && !p a) l = List.filter (fun a => !p a) l := by
    apply List.filter_congr
    intro a _
    cases p a <;> rfl
  have h2 : List.filter (fun a => (!p a) && p a) l = [] := by
    rw [List.filter_eq_nil_iff]
    intro a _
    cases p a <;> simp
  have h3 : List.filter (fun a => p a && !p a) l = [] := by
    rw [List.filter_eq_nil_iff]
    intro a _
    cases p a <;> simp
  have h4 : List.filter (fun a => p a && p a) l = List.filter p l := by
    apply List.filter_congr
    intro a _
    cases p a <;> rfl
  rw [h1, h2, h3, h4]
  simp

/-- C12. The function `applyHighlight` is idempotent: for every series map, every prior
list of arcs with whatever attributes and order, every focal record `d` and every
`isSelected` flag, calling `applyHighlight(d, isSelected)` twice in succession leaves the
same arcs (opacity and stroke width of each, and the draw order) as calling it once. -/
theorem applyHighlight_idempotent (seriesMap : List (Str × List Record)) (d : Record)
    (isSelected : Bool) (gArcs : List Arc) :
    applyHighlight seriesMap d isSelected (applyHighlight seriesMap d isSelected gArcs) =
      applyHighlight seriesMap d isSelected gArcs := by
  rw [applyHighlight_eq_map seriesMap d isSelected (applyHighlight seriesMap d isSelected gArcs),
    applyHighlight_eq_map seriesMap d isSelected gArcs, ← raise_map_highlightOne, raise_raise,
    raise_map_highlightOne, List.map_map]
  congr 1
  apply List.map_congr_left
  intro a _
  exact highlightOne_idem _ d isSelected a

/-! ## Mini tooltip: the hide timers -/

/-- C13 fails on the code. The function `scheduleHideTT` starts a new hide timer without
cancelling the one before, so each call adds a pending timer. With
`2001: A Space Odyssey` selected, the pointer leaves `Dune` (timer 0), crosses the selected
arc (timer 1) and enters `Star Trek`: two timers are pending after the second leave, the
tooltip shown for `Star Trek` cancels timer 1 only, and timer 0, scheduled before that
tooltip was shown, then fires and hides it while the pointer is still on `Star Trek`. -/
theorem stale_hide_timer_hides_tooltip :
    (∀ s : State, (scheduleHideTT s).pendingTimers = s.pendingTimers ++ [s.nextTimerId]) ∧
    sampleSelected.pendingTimers = [] ∧
    (run sampleScaleLog sampleSelected (sampleSweep.take 4)).pendingTimers = [0, 1] ∧
    (run sampleScaleLog sampleSelected sampleSweep).pendingTimers = [0] ∧
    (run sampleScaleLog sampleSelected sampleSweep).tooltip.display = true ∧
    (run sampleScaleLog sampleSelected sampleSweep).tooltip.content = some drawnTrek ∧
    (run sampleScaleLog sampleSelected sampleSweep).hoveredId = some drawnTrek.record_id ∧
    (fireTimer (run sampleScaleLog sampleSelected sampleSweep) 0).tooltip.display = false ∧
    (fireTimer (run sampleScaleLog sampleSelected sampleSweep) 0).hoveredId =
      some drawnTrek.record_id := by
  refine ⟨fun _ => rfl, ?_, ?_, ?_, ?_, ?_, ?_, ?_, ?_⟩ <;> decide


/-! ## Log-hybrid scale: theorems -/

end SciFiTimeline
